import Mathlib

/-!
Verification of the core logic of `app-google-docs` (a TypeScript DocGo
integration for Google Docs/Sheets/Drive) against its specification.

The embedding translates the relevant functions of the source into Lean:

* `columnLettersToIndex`, `resolveA1Target` — `src/google/sheets.ts`
* `docsUpdateById` (request construction of `GoogleDocsApi.updateById`)
  — `src/google/docs.ts`
* `getAccessToken` (token cache of `GoogleApi`) — `src/google/google.ts`
* `getGoogleAccessToken` (module-level token cache) — `src/utils.ts`
* error construction of `GoogleApi.request` and of the `gapiGet` copies

JavaScript numbers that can go negative are modelled as `Int`; fields that
may be absent or of the wrong runtime type are modelled as `Option`;
`throw` is modelled as `Option`/`Except` error results.
-/

/-- A character accepted by the regex character class `[A-Za-z]`. -/
def isAsciiLetter (c : Char) : Bool :=
  (65 ≤ c.toNat && c.toNat ≤ 90) || (97 ≤ c.toNat && c.toNat ≤ 122)

/-- One iteration of the loop in `columnLettersToIndex`
(`src/google/sheets.ts` lines 286-292): on a char code outside `65..90` the
function throws (modelled as `none`); otherwise `n := n * 26 + (code - 64)`. -/
def colStep (acc : Option Nat) (c : Char) : Option Nat :=
  acc.bind fun n =>
    if c.toNat < 65 || c.toNat > 90 then none
    else some (n * 26 + (c.toNat - 64))

/-- `columnLettersToIndex` from `src/google/sheets.ts` lines 284-294:
`n = 0`; for each character, throw if its code is outside `65..90`, else
`n = n * 26 + (code - 64)`; finally return `n - 1` (a JS number, hence
`Int`: the empty string would yield `-1`). -/
def columnLettersToIndex (letters : List Char) : Option Int :=
  (letters.foldl colStep (some 0)).map (fun n => (n : Int) - 1)

/-- The positional sum of the spec (§4.4 step 3): written from the spec's
words, `Σ value(letter_i) * 26^(n-1-i)` with `value(c) = code(c) - 64`; the
head of the list (position `i = 0`) carries exponent `n - 1`. -/
def specColumnSum : List Char → Nat
  | [] => 0
  | c :: rest => (c.toNat - 64) * 26 ^ rest.length + specColumnSum rest

lemma foldl_colStep_some (l : List Char)
    (h : ∀ c ∈ l, 65 ≤ c.toNat ∧ c.toNat ≤ 90) (a : ℕ) :
    l.foldl colStep (some a) = some (a * 26 ^ l.length + specColumnSum l) := by
  induction l generalizing a with
  | nil => simp [specColumnSum]
  | cons c rest ih =>
    have hc := h c (by simp)
    have hrest : ∀ x ∈ rest, 65 ≤ x.toNat ∧ x.toNat ≤ 90 := by
      intro x hx; exact h x (by simp [hx])
    have hnot : ¬ ((decide (c.toNat < 65) || decide (c.toNat > 90)) = true) := by
      simp only [Bool.or_eq_true, decide_eq_true_eq]
      omega
    have hstep : colStep (some a) c = some (a * 26 + (c.toNat - 64)) := by
      simp [colStep, hnot]
    simp only [List.foldl_cons, hstep, ih hrest]
    congr 1
    simp only [specColumnSum, List.length_cons, pow_succ]
    ring

lemma columnLettersToIndex_eq_spec (l : List Char)
    (h : ∀ c ∈ l, 65 ≤ c.toNat ∧ c.toNat ≤ 90) :
    columnLettersToIndex l = some ((specColumnSum l : Int) - 1) := by
  simp [columnLettersToIndex, foldl_colStep_some l h 0]

lemma specColumnSum_concat (l : List Char) (c : Char) :
    specColumnSum (l ++ [c]) = 26 * specColumnSum l + (c.toNat - 64) := by
  induction l with
  | nil => simp [specColumnSum]
  | cons d rest ih =>
    simp only [List.cons_append, specColumnSum, ih, List.append_eq,
      List.length_append, List.length_cons, List.length_nil, pow_succ]
    ring

lemma specColumnSum_pos (l : List Char) (hne : l ≠ [])
    (h : ∀ c ∈ l, 65 ≤ c.toNat ∧ c.toNat ≤ 90) : 1 ≤ specColumnSum l := by
  cases l with
  | nil => exact absurd rfl hne
  | cons c rest =>
    have hc := h c (by simp)
    have hpow : 1 ≤ 26 ^ rest.length := Nat.one_le_pow _ _ (by norm_num)
    have hval : 1 ≤ c.toNat - 64 := by omega
    have : 1 * 1 ≤ (c.toNat - 64) * 26 ^ rest.length :=
      Nat.mul_le_mul hval hpow
    simp only [specColumnSum]
    omega

lemma char_eq_of_toNat_eq {c d : Char} (h : c.toNat = d.toNat) : c = d := by
  have : Char.ofNat c.toNat = Char.ofNat d.toNat := by rw [h]
  rwa [Char.ofNat_toNat, Char.ofNat_toNat] at this

lemma specColumnSum_injOn : ∀ l₁ : List Char,
    (∀ c ∈ l₁, 65 ≤ c.toNat ∧ c.toNat ≤ 90) →
    ∀ l₂ : List Char, (∀ c ∈ l₂, 65 ≤ c.toNat ∧ c.toNat ≤ 90) →
    specColumnSum l₁ = specColumnSum l₂ → l₁ = l₂ := by
  intro l₁
  induction l₁ using List.reverseRecOn with
  | nil =>
    intro _ l₂ h₂ heq
    cases l₂ using List.reverseRecOn with
    | nil => rfl
    | append_singleton l' c' =>
      exfalso
      have hc' := h₂ c' (by simp)
      have := specColumnSum_concat l' c'
      simp only [specColumnSum] at heq
      omega
  | append_singleton l c ih =>
    intro h₁ l₂ h₂ heq
    cases l₂ using List.reverseRecOn with
    | nil =>
      exfalso
      have hc := h₁ c (by simp)
      have := specColumnSum_concat l c
      simp only [specColumnSum] at heq
      omega
    | append_singleton l' c' =>
      have hc := h₁ c (by simp)
      have hc' := h₂ c' (by simp)
      rw [specColumnSum_concat, specColumnSum_concat] at heq
      have hS : specColumnSum l = specColumnSum l' ∧ c.toNat = c'.toNat := by
        constructor
        · omega
        · omega
      have hl : l = l' := by
        refine ih (fun x hx => h₁ x (by simp [hx])) l'
          (fun x hx => h₂ x (by simp [hx])) hS.1
      rw [hl, char_eq_of_toNat_eq hS.2]

lemma columnLettersToIndex_injOn (l₁ l₂ : List Char)
    (h₁ : ∀ c ∈ l₁, 65 ≤ c.toNat ∧ c.toNat ≤ 90)
    (h₂ : ∀ c ∈ l₂, 65 ≤ c.toNat ∧ c.toNat ≤ 90)
    (heq : columnLettersToIndex l₁ = columnLettersToIndex l₂) : l₁ = l₂ := by
  rw [columnLettersToIndex_eq_spec l₁ h₁, columnLettersToIndex_eq_spec l₂ h₂]
    at heq
  have : specColumnSum l₁ = specColumnSum l₂ := by
    have := Option.some.inj heq
    omega
  exact specColumnSum_injOn l₁ h₁ l₂ h₂ this

/-- C1: for every column-letter string over `A..Z` of length at most 3
(`A`..`ZZZ`), `columnLettersToIndex` is total and computes
`(Σ value(letter_i) * 26^(n-1-i)) - 1` with `value(c) = code(c) - 64`; it is
injective on that domain; and it maps `A` to 0, `Z` to 25, `AA` to 26, `AB`
to 27, `AZ` to 51 and `BA` to 52. -/
theorem columnLettersToIndex_correct (l₁ l₂ : List Char)
    (h₁ : l₁ ≠ [] ∧ l₁.length ≤ 3 ∧ ∀ c ∈ l₁, 65 ≤ c.toNat ∧ c.toNat ≤ 90)
    (h₂ : l₂ ≠ [] ∧ l₂.length ≤ 3 ∧ ∀ c ∈ l₂, 65 ≤ c.toNat ∧ c.toNat ≤ 90) :
    columnLettersToIndex l₁ = some ((specColumnSum l₁ : Int) - 1)
    ∧ (columnLettersToIndex l₁ = columnLettersToIndex l₂ → l₁ = l₂)
    ∧ columnLettersToIndex [ 'A' ] = some 0
    ∧ columnLettersToIndex [ 'Z' ] = some 25
    ∧ columnLettersToIndex [ 'A', 'A' ] = some 26
    ∧ columnLettersToIndex [ 'A', 'B' ] = some 27
    ∧ columnLettersToIndex [ 'A', 'Z' ] = some 51
    ∧ columnLettersToIndex [ 'B', 'A' ] = some 52 := by
  refine ⟨columnLettersToIndex_eq_spec l₁ h₁.2.2,
    columnLettersToIndex_injOn l₁ l₂ h₁.2.2 h₂.2.2, ?_, ?_, ?_, ?_, ?_, ?_⟩
  all_goals decide

/-- Witness for C1 at the concrete inputs `l₁ = l₂ = "A"`. -/
theorem columnLettersToIndex_correct_witness :
    columnLettersToIndex [ 'A' ] = some ((specColumnSum [ 'A' ] : Int) - 1) :=
  (columnLettersToIndex_correct [ 'A' ] [ 'A' ]
    (by refine ⟨by decide, by decide, ?_⟩; decide)
    (by refine ⟨by decide, by decide, ?_⟩; decide)).1

/-- Properties of one sheet as read from the spreadsheet payload
(`s?.properties?.title`, `s?.properties?.sheetId`); absent or wrongly-typed
fields are `none`. -/
structure SheetProperties where
  title : Option String
  sheetId : Option Int
deriving DecidableEq, Repr

/-- One entry of the `sheets` array of the spreadsheet payload. -/
structure Sheet where
  properties : Option SheetProperties
deriving DecidableEq, Repr

/-- The spreadsheet payload as consumed by `resolveA1Target`
(`spreadsheet?.sheets`). -/
structure Spreadsheet where
  sheets : Option (List Sheet)
deriving DecidableEq, Repr

/-- The `A1Target` record built by `resolveA1Target`
(`src/google/sheets.ts` lines 12-19). -/
structure A1Target where
  sheetId : Int
  startRowIndex : Int
  endRowIndex : Int
  startColumnIndex : Int
  endColumnIndex : Int
  a1 : String
deriving DecidableEq, Repr

/-- The distinct `throw new Error(...)` sites of `resolveA1Target` and of
`columnLettersToIndex`. -/
inductive AddressError
  | noSheets
  | noSheetId
  | invalidRange
  | invalidRow
  | invalidColumn
deriving DecidableEq, Repr

/-- JS `String.prototype.trim` on a character list: whitespace is removed
from both ends. -/
def jsTrim (l : List Char) : List Char :=
  ((l.dropWhile Char.isWhitespace).reverse.dropWhile Char.isWhitespace).reverse

/-- JS `startsWith("'")` on the (already trimmed) sheet name. -/
def startsWithQuote (l : List Char) : Bool :=
  match l with
  | [] => false
  | c :: _ => c.toNat == 39

/-- JS `endsWith("'")` on the (already trimmed) sheet name. -/
def endsWithQuote (l : List Char) : Bool :=
  match l.getLast? with
  | none => false
  | some c => c.toNat == 39

/-- Lines 220-232 of `src/google/sheets.ts`: split the normalized range at
the first `!`. Without a `!` the sheet name stays `null` (`none`); with one,
the prefix and suffix are trimmed and a single-quoted sheet name has its
quotes stripped (`slice(1, -1)`). -/
def splitSheetName (normalized : List Char) : Option (List Char) × List Char :=
  let pre := normalized.takeWhile (fun c => c ≠ '!')
  if pre.length = normalized.length then
    (none, normalized)
  else
    let rawName := jsTrim pre
    let cellRef := jsTrim (normalized.drop (pre.length + 1))
    let name :=
      if startsWithQuote rawName && endsWithQuote rawName then
        (rawName.drop 1).take (rawName.length - 2)
      else rawName
    (some name, cellRef)

/-- Line 234-236: `sheetName ? sheets.find(s => s?.properties?.title ===
sheetName) : sheets[0]`; the empty string is falsy in JS, so an empty sheet
name also selects the first sheet. -/
def selectSheet (sheets : List Sheet) (sheetName : Option (List Char)) :
    Option Sheet :=
  match sheetName with
  | some n =>
    if n ≠ [] then
      sheets.find? (fun s => (s.properties.bind fun p => p.title) = some n.asString)
    else sheets.head?
  | none => sheets.head?

/-- Line 244: the regex `^([A-Za-z]+)(\d+)$`; on a match, returns the two
capture groups (letters, digits). -/
def parseCellRef (cellRef : List Char) : Option (List Char × List Char) :=
  let letters := cellRef.takeWhile (fun c => isAsciiLetter c)
  let digits := cellRef.drop letters.length
  if letters.isEmpty || digits.isEmpty || !(digits.all (fun c => c.isDigit)) then
    none
  else some (letters, digits)

/-- `parseInt(m[2], 10)` on the nonempty all-digit capture group. -/
def digitsToNat (digits : List Char) : Nat :=
  digits.foldl (fun n c => n * 10 + (c.toNat - 48)) 0

/-- `resolveA1Target` from `src/google/sheets.ts` lines 211-269: resolve a
single-cell A1 range against the fetched spreadsheet structure, producing
0-based half-open row/column intervals, or throw (modelled as `Except`). -/
def resolveA1Target (spreadsheet : Spreadsheet) (inputRange : String) :
    Except AddressError A1Target :=
  let sheets := spreadsheet.sheets.getD []
  if sheets.isEmpty then .error .noSheets
  else
    let normalized := jsTrim (if inputRange = ("") then ("A1") else inputRange).toList
    let split := splitSheetName normalized
    let sheetName := split.1
    let cellRef := split.2
    match ((selectSheet sheets sheetName).bind fun s => s.properties).bind
        (fun p => p.sheetId) with
    | none => .error .noSheetId
    | some sid =>
      match parseCellRef cellRef with
      | none => .error .invalidRange
      | some (letters, digits) =>
        let colLetters := letters.map Char.toUpper
        let rowNumber := digitsToNat digits
        if rowNumber ≤ 0 then .error .invalidRow
        else
          match columnLettersToIndex colLetters with
          | none => .error .invalidColumn
          | some colIndex =>
            let rowIndex : Int := (rowNumber : Int) - 1
            .ok {
              sheetId := sid
              startRowIndex := rowIndex
              endRowIndex := rowIndex + 1
              startColumnIndex := colIndex
              endColumnIndex := colIndex + 1
              a1 := ((match sheetName with
                      | some n => if n ≠ [] then n ++ [ '!' ] else []
                      | none => []) ++ colLetters).asString ++ toString rowNumber }

lemma char_toNat_ofNat_of_lt {n : Nat} (h : n < 55296) : (Char.ofNat n).toNat = n := by
  have hv : n.isValidChar := Or.inl h
  simp only [Char.ofNat, hv, dif_pos, Char.ofNatAux, Char.toNat]
  rfl

lemma toUpper_bounds {c : Char} (h : isAsciiLetter c = true) :
    65 ≤ (Char.toUpper c).toNat ∧ (Char.toUpper c).toNat ≤ 90 := by
  simp only [isAsciiLetter, Bool.or_eq_true, Bool.and_eq_true,
    decide_eq_true_eq] at h
  simp only [Char.toUpper]
  split
  · next hc => rw [char_toNat_ofNat_of_lt (by omega)]; omega
  · next hc => omega

lemma parseCellRef_inv {cellRef letters digits : List Char}
    (h : parseCellRef cellRef = some (letters, digits)) :
    letters ≠ [] ∧ (∀ c ∈ letters, isAsciiLetter c = true)
      ∧ digits ≠ [] ∧ (∀ c ∈ digits, c.isDigit = true) := by
  simp only [parseCellRef] at h
  split at h
  · exact absurd h (by simp)
  · next hcond =>
    have hp := Option.some.inj h
    have hl : cellRef.takeWhile (fun c => isAsciiLetter c) = letters :=
      congrArg Prod.fst hp
    have hd :
        cellRef.drop (cellRef.takeWhile (fun c => isAsciiLetter c)).length =
          digits :=
      congrArg Prod.snd hp
    rw [Bool.or_eq_true, Bool.or_eq_true, hl] at hcond
    rw [hl] at hd
    rw [hd] at hcond
    refine ⟨?_, ?_, ?_, ?_⟩
    · intro hnil
      exact hcond (Or.inl (Or.inl (by simp [hnil])))
    · intro c hc
      rw [← hl] at hc
      exact List.mem_takeWhile_imp hc
    · intro hnil
      exact hcond (Or.inl (Or.inr (by simp [hnil])))
    · intro c hc
      by_contra hcd
      refine hcond (Or.inr ?_)
      rw [Bool.not_eq_true']
      rw [Bool.eq_false_iff]
      intro hall
      rw [List.all_eq_true] at hall
      exact hcd (hall c hc)

lemma columnLettersToIndex_upper_some (letters : List Char)
    (h : ∀ c ∈ letters, isAsciiLetter c = true) :
    columnLettersToIndex (letters.map Char.toUpper) =
      some ((specColumnSum (letters.map Char.toUpper) : Int) - 1) := by
  refine columnLettersToIndex_eq_spec _ ?_
  intro c hc
  obtain ⟨d, hd, rfl⟩ := List.mem_map.1 hc
  exact toUpper_bounds (h d hd)

/-- C10: any letters captured by the single-cell pattern of
`resolveA1Target` land, after uppercasing, on char codes in `65..90`, so
`columnLettersToIndex` returns a value on them; consequently the
invalid-column throw inside `columnLettersToIndex` is unreachable from
`resolveA1Target`, for every spreadsheet and every input range. -/
theorem resolveA1Target_column_branch_unreachable (s letters digits : List Char)
    (sp : Spreadsheet) (r : String)
    (h : parseCellRef s = some (letters, digits)) :
    (∀ c ∈ letters.map Char.toUpper, 65 ≤ c.toNat ∧ c.toNat ≤ 90)
    ∧ (∃ k, columnLettersToIndex (letters.map Char.toUpper) = some k)
    ∧ resolveA1Target sp r ≠ Except.error AddressError.invalidColumn := by
  obtain ⟨-, hletters, -, -⟩ := parseCellRef_inv h
  refine ⟨?_, ⟨_, columnLettersToIndex_upper_some letters hletters⟩, ?_⟩
  · intro c hc
    obtain ⟨d, hd, rfl⟩ := List.mem_map.1 hc
    exact toUpper_bounds (hletters d hd)
  · intro hEq
    simp only [resolveA1Target] at hEq
    split at hEq
    · exact absurd (Except.error.inj hEq) (by simp)
    · split at hEq
      · exact absurd (Except.error.inj hEq) (by simp)
      · split at hEq
        · exact absurd (Except.error.inj hEq) (by simp)
        · next l d hpar =>
          split at hEq
          · exact absurd (Except.error.inj hEq) (by simp)
          · split at hEq
            · next hcol =>
              obtain ⟨-, hl', -, -⟩ := parseCellRef_inv hpar
              rw [columnLettersToIndex_upper_some l hl'] at hcol
              exact absurd hcol (by simp)
            · exact absurd hEq (by simp)

/-- Witness for C10 at the concrete cell reference `B2`. -/
theorem resolveA1Target_column_branch_unreachable_witness :
    resolveA1Target ⟨some [⟨some ⟨some ("Sheet1"), some 0⟩⟩]⟩ ("A1") ≠
      Except.error AddressError.invalidColumn :=
  (resolveA1Target_column_branch_unreachable ("B2").toList [ 'B' ] [ '2' ]
    ⟨some [⟨some ⟨some ("Sheet1"), some 0⟩⟩]⟩ ("A1") (by rfl)).2.2

lemma selectSheet_mem {sheets : List Sheet} {name : Option (List Char)}
    {sh : Sheet} (h : selectSheet sheets name = some sh) : sh ∈ sheets := by
  unfold selectSheet at h
  cases name with
  | none => exact List.mem_of_mem_head? h
  | some n =>
    simp only [] at h
    split at h
    · exact List.mem_of_find?_eq_some h
    · exact List.mem_of_mem_head? h

lemma mem_of_mem_jsTrim {c : Char} {l : List Char} (h : c ∈ jsTrim l) :
    c ∈ l := by
  unfold jsTrim at h
  rw [List.mem_reverse] at h
  have h2 := (List.dropWhile_sublist Char.isWhitespace).subset h
  rw [List.mem_reverse] at h2
  exact (List.dropWhile_sublist Char.isWhitespace).subset h2

lemma splitSheetName_of_no_bang {l : List Char} (h : '!' ∉ l) :
    splitSheetName l = (none, l) := by
  unfold splitSheetName
  have htw : l.takeWhile (fun c => c ≠ '!') = l := by
    rw [List.takeWhile_eq_self_iff]
    intro a ha
    simp only [ne_eq, decide_eq_true_eq]
    exact fun heq => h (heq ▸ ha)
  rw [htw]
  simp

/-- C4: on every spreadsheet structure and accepted single-cell address, the
resolved `A1Target` has half-open row and column ranges of width 1 and
carries the numeric `sheetId` of a sheet of the structure; an address
without `!` resolves against the first sheet; `B2` on a single-sheet
structure yields row range [1,2) and column range [1,2); `'My Sheet'!C3`
resolves against the sheet titled `My Sheet` with the quotes stripped. -/
theorem resolveA1Target_shape (sp : Spreadsheet) (r : String) (t : A1Target)
    (h : resolveA1Target sp r = Except.ok t) :
    (t.endRowIndex = t.startRowIndex + 1
      ∧ t.endColumnIndex = t.startColumnIndex + 1)
    ∧ (∃ sh ∈ sp.sheets.getD [],
        (sh.properties.bind fun p => p.sheetId) = some t.sheetId)
    ∧ ('!' ∉ r.toList →
        ∃ sh, (sp.sheets.getD []).head? = some sh
          ∧ (sh.properties.bind fun p => p.sheetId) = some t.sheetId)
    ∧ resolveA1Target ⟨some [⟨some ⟨some ("Sheet1"), some 7⟩⟩]⟩ ("B2")
        = Except.ok ⟨7, 1, 2, 1, 2, ("B2")⟩
    ∧ resolveA1Target
        ⟨some [⟨some ⟨some ("Other"), some 1⟩⟩,
               ⟨some ⟨some ("My Sheet"), some 2⟩⟩]⟩
        ("'My Sheet'!C3") = Except.ok ⟨2, 2, 3, 2, 3, ("My Sheet!C3")⟩ := by
  simp only [resolveA1Target] at h
  split at h
  · exact absurd h (by simp)
  · next hne =>
    split at h
    · exact absurd h (by simp)
    · next sid heq =>
      split at h
      · exact absurd h (by simp)
      · next l d hpar =>
        split at h
        · exact absurd h (by simp)
        · next hrow =>
          split at h
          · exact absurd h (by simp)
          · next colIdx hcol =>
            have ht := Except.ok.inj h
            obtain ⟨ps, hps, hpid⟩ := Option.bind_eq_some.1 heq
            obtain ⟨sh, hsh, hprop⟩ := Option.bind_eq_some.1 hps
            refine ⟨?_, ?_, ?_, by rfl, by rfl⟩
            · rw [← ht]
              exact ⟨rfl, rfl⟩
            · refine ⟨sh, selectSheet_mem hsh, ?_⟩
              rw [hprop, ← ht]
              simpa using hpid
            · intro hnb
              have hnb' :
                  '!' ∉ jsTrim (if r = ("") then ("A1") else r).toList := by
                intro hmem
                have := mem_of_mem_jsTrim hmem
                split at this
                · simp at this
                · exact hnb this
              rw [splitSheetName_of_no_bang hnb'] at hsh
              refine ⟨sh, hsh, ?_⟩
              rw [hprop, ← ht]
              simpa using hpid

/-- Witness for C4 at the single-sheet structure and the address `B2`. -/
theorem resolveA1Target_shape_witness :
    ((⟨7, 1, 2, 1, 2, ("B2")⟩ : A1Target).endRowIndex
        = (⟨7, 1, 2, 1, 2, ("B2")⟩ : A1Target).startRowIndex + 1
      ∧ (⟨7, 1, 2, 1, 2, ("B2")⟩ : A1Target).endColumnIndex
        = (⟨7, 1, 2, 1, 2, ("B2")⟩ : A1Target).startColumnIndex + 1) :=
  (resolveA1Target_shape ⟨some [⟨some ⟨some ("Sheet1"), some 7⟩⟩]⟩ ("B2")
    ⟨7, 1, 2, 1, 2, ("B2")⟩ (by rfl)).1

/-- C5 counterexample: a spreadsheet whose only sheet lacks a numeric
`sheetId` makes `resolveA1Target` throw on the plain address `A1`, although
none of the claimed failure conditions holds: the sheet list is nonempty,
no sheet name is referenced (no `!`), the cell reference is of the form
letters-digits, and the row number is the positive integer 1. -/
theorem resolveA1Target_error_counterexample :
    resolveA1Target ⟨some [⟨some ⟨some ("Sheet1"), none⟩⟩]⟩ ("A1")
        = Except.error AddressError.noSheetId
    ∧ ((⟨some [⟨some ⟨some ("Sheet1"), none⟩⟩]⟩ : Spreadsheet).sheets.getD [])
        ≠ []
    ∧ parseCellRef ("A1").toList = some ([ 'A' ], [ '1' ])
    ∧ digitsToNat [ '1' ] = 1
    ∧ '!' ∉ ("A1").toList := by
  refine ⟨by rfl, by simp, by rfl, by rfl, by decide⟩

/-- C5 (amended): `resolveA1Target` throws exactly when the sheet list is
empty, or the selected sheet (the named one for a nonempty sheet name, else
the first — in particular a name matching no title) is missing a numeric
`sheetId`, or the cell reference is not of the form letters-digits, or the
parsed row number is zero; on every other input it succeeds. -/
theorem resolveA1Target_error_charac (sp : Spreadsheet) (r : String) :
    (∃ t, resolveA1Target sp r = Except.ok t) ↔
      (sp.sheets.getD [] ≠ []
        ∧ (((selectSheet (sp.sheets.getD [])
              (splitSheetName (jsTrim (if r = ("") then ("A1") else r).toList)).1).bind
                fun s => s.properties).bind fun p => p.sheetId) ≠ none
        ∧ (∃ ld, parseCellRef
              (splitSheetName (jsTrim (if r = ("") then ("A1") else r).toList)).2
                = some ld
            ∧ digitsToNat ld.2 ≠ 0)) := by
  simp only [resolveA1Target]
  split
  · next hempty =>
    have hnil : sp.sheets.getD [] = [] := List.isEmpty_iff.1 hempty
    simp [hnil]
  · next hne =>
    split
    · next hsid =>
      constructor
      · rintro ⟨t, ht⟩
        exact absurd ht (by simp)
      · rintro ⟨-, hsid', -⟩
        exact absurd hsid hsid'
    · next sid hsid =>
      split
      · next hpar =>
        constructor
        · rintro ⟨t, ht⟩
          exact absurd ht (by simp)
        · rintro ⟨-, -, ⟨ld, hld, -⟩⟩
          rw [hpar] at hld
          exact absurd hld (by simp)
      · next l d hpar =>
        split
        · next hrow =>
          constructor
          · rintro ⟨t, ht⟩
            exact absurd ht (by simp)
          · rintro ⟨-, -, ⟨ld, hld, hdn⟩⟩
            rw [hpar] at hld
            have := Option.some.inj hld
            rw [← this] at hdn
            exact absurd (Nat.le_zero.mp hrow) hdn
        · next hrow =>
          split
          · next hcol =>
            obtain ⟨-, hl', -, -⟩ := parseCellRef_inv hpar
            rw [columnLettersToIndex_upper_some l hl'] at hcol
            exact absurd hcol (by simp)
          · next colIdx hcol =>
            constructor
            · intro _
              refine ⟨?_, ?_, ⟨(l, d), hpar, ?_⟩⟩
              · intro hnil
                exact hne (by simp [hnil])
              · intro hnone
                rw [hnone] at hsid
                exact absurd hsid (by simp)
              · exact fun h0 => hrow (Nat.le_of_eq h0)
            · intro _
              exact ⟨_, rfl⟩

/-- One block of `doc.body.content`; `updateById` consults only its
`endIndex` (`typeof last?.endIndex === "number"`; a missing or non-numeric
field is `none`). -/
structure ContentBlock where
  endIndex : Option Int
deriving DecidableEq, Repr

/-- The document body (`doc.body?.content`). -/
structure DocBody where
  content : Option (List ContentBlock)
deriving DecidableEq, Repr

/-- The fetched document structure consumed by `GoogleDocsApi.updateById`. -/
structure Document where
  body : Option DocBody
deriving DecidableEq, Repr

/-- The two batch-update request kinds this repository issues against the
Docs API: `deleteContentRange` with a `[startIndex, endIndex)` range and
`insertText` at a location index. -/
inductive DocRequest
  | deleteContentRange (startIndex endIndex : Int)
  | insertText (index : Int) (text : String)
deriving DecidableEq, Repr

/-- The `endIndex` computation of `GoogleDocsApi.updateById`
(`src/google/docs.ts` lines 77-81): the last content block's `endIndex`
when that is a number, else 1. -/
def docsEndIndex (doc : Document) : Int :=
  (((doc.body.bind fun b => b.content).getD []).getLast?.bind
    fun blk => blk.endIndex).getD 1

/-- The request list of the single `documents.batchUpdate` call posted by
`GoogleDocsApi.updateById` (`src/google/docs.ts` lines 85-115): an optional
`deleteContentRange` of `[1, max 1 (endIndex - 1))` when that bound exceeds
1, always followed by an `insertText` of `data` at index 1. -/
def docsUpdateById (doc : Document) (data : String) : List DocRequest :=
  let endIndex := docsEndIndex doc
  let deleteEnd := max 1 (endIndex - 1)
  (if deleteEnd > 1 then [DocRequest.deleteContentRange 1 deleteEnd] else [])
    ++ [DocRequest.insertText 1 data]

/-- C2: the deletion upper bound is `max 1 (endIndex - 1)` with `endIndex`
read from the last content block (1 when absent or non-numeric); with
`endIndex = 42` the single batch is the delete of `[1, 41)` followed by the
insert at 1; with `endIndex = 1` no delete is issued, only the insert; in
general the delete-range precedes the insert in the one submitted request
list. -/
theorem docsUpdateById_requests (doc : Document) (data : String) :
    (docsEndIndex doc = 42 →
      docsUpdateById doc data =
        [DocRequest.deleteContentRange 1 41, DocRequest.insertText 1 data])
    ∧ (docsEndIndex doc = 1 →
      docsUpdateById doc data = [DocRequest.insertText 1 data])
    ∧ (1 < docsEndIndex doc - 1 →
      docsUpdateById doc data =
        [DocRequest.deleteContentRange 1 (max 1 (docsEndIndex doc - 1)),
         DocRequest.insertText 1 data])
    ∧ (docsEndIndex doc - 1 ≤ 1 →
      docsUpdateById doc data = [DocRequest.insertText 1 data]) := by
  refine ⟨?_, ?_, ?_, ?_⟩
  · intro h
    simp only [docsUpdateById, h]
    norm_num
  · intro h
    simp only [docsUpdateById, h]
    norm_num
  · intro h
    simp only [docsUpdateById]
    rw [if_pos (by omega)]
    rfl
  · intro h
    simp only [docsUpdateById]
    rw [if_neg (by omega)]
    rfl

/-- Witness for C2 at a document whose last block reports `endIndex = 42`. -/
theorem docsUpdateById_requests_witness :
    docsUpdateById ⟨some ⟨some [⟨some 42⟩]⟩⟩ ("hello") =
      [DocRequest.deleteContentRange 1 41,
       DocRequest.insertText 1 ("hello")] :=
  (docsUpdateById_requests ⟨some ⟨some [⟨some 42⟩]⟩⟩ ("hello")).1 (by rfl)

/-- C6 counterexample: a fetched document with no usable trailing boundary
(here: empty `body.content`, so the last block is absent) does not make
`updateById` fail; the computation treats `endIndex` as 1 and proceeds,
issuing the insert request — there is no error path at all in the
computation. -/
theorem docsUpdateById_no_structure_error :
    docsUpdateById ⟨some ⟨some []⟩⟩ ("x") = [DocRequest.insertText 1 ("x")]
    ∧ docsEndIndex ⟨some ⟨some []⟩⟩ = 1 := ⟨by rfl, by rfl⟩

/-- C6 (amended): when the fetched document has no usable trailing boundary
(last content block absent or its `endIndex` missing/non-numeric),
`updateById` does not fail: it falls back to `endIndex = 1` and issues only
the insert request. -/
theorem docsUpdateById_missing_boundary (doc : Document) (data : String)
    (h : (((doc.body.bind fun b => b.content).getD []).getLast?.bind
        fun blk => blk.endIndex) = none) :
    docsEndIndex doc = 1
    ∧ docsUpdateById doc data = [DocRequest.insertText 1 data] := by
  have he : docsEndIndex doc = 1 := by simp [docsEndIndex, h]
  refine ⟨he, ?_⟩
  simp only [docsUpdateById, he]
  norm_num

/-- Witness for C6 (amended) at a document with empty `body.content`. -/
theorem docsUpdateById_missing_boundary_witness :
    docsUpdateById ⟨some ⟨some []⟩⟩ ("y") = [DocRequest.insertText 1 ("y")] :=
  (docsUpdateById_missing_boundary ⟨some ⟨some []⟩⟩ ("y") (by rfl)).2

/-- Modelled from the spec: the remote rich-text body maintained by the
Docs API is not part of this repository; per §4.3 and the glossary it is a
contiguous index space holding the body text at positions 1, 2, ... plus
one implicit trailing boundary that cannot be deleted, so the last content
block reports the exclusive `endIndex = text.length + 2`. -/
structure RemoteDoc where
  text : String
deriving DecidableEq, Repr

/-- Modelled from the spec: the document structure the fetch returns for a
remote body (§4.3 step 1: a sequence of content blocks whose last block
carries the final boundary index). -/
def RemoteDoc.fetch (d : RemoteDoc) : Document :=
  ⟨some ⟨some [⟨some ((d.text.length : Int) + 2)⟩]⟩⟩

/-- Modelled from the spec: the remote application of one batch request —
`deleteContentRange` removes the characters at positions
`[startIndex, endIndex)` of the body index space, `insertText` inserts the
text before position `index` (character k of the body text, 0-based, sits
at position k+1). -/
def applyDocRequest (d : RemoteDoc) (r : DocRequest) : RemoteDoc :=
  match r with
  | .deleteContentRange s e =>
    ⟨((d.text.toList.take (s.toNat - 1))
        ++ (d.text.toList.drop (e.toNat - 1))).asString⟩
  | .insertText i t =>
    ⟨((d.text.toList.take (i.toNat - 1)) ++ t.toList
        ++ (d.text.toList.drop (i.toNat - 1))).asString⟩

/-- Modelled from the spec: a batch is applied in order, delete before
insert (§4.3 step 4). -/
def applyDocRequests (d : RemoteDoc) (rs : List DocRequest) : RemoteDoc :=
  rs.foldl applyDocRequest d

/-- One round of full-body replace (`GoogleDocsApi.updateById` /
`replaceBody` of §4.3): fetch the structure, build the batch from it, apply
the batch remotely. -/
def replaceBody (d : RemoteDoc) (data : String) : RemoteDoc :=
  applyDocRequests d (docsUpdateById (RemoteDoc.fetch d) data)

lemma replaceBody_text (d : RemoteDoc) (t : String) : replaceBody d t = ⟨t⟩ := by
  have he : docsEndIndex (RemoteDoc.fetch d) = (d.text.length : Int) + 2 := by
    simp [docsEndIndex, RemoteDoc.fetch]
  have hlen : d.text.toList.length = d.text.length := rfl
  unfold replaceBody docsUpdateById
  rw [he]
  simp only []
  by_cases h0 : d.text.length = 0
  · rw [if_neg (by omega)]
    have hnil : d.text.toList = [] := List.length_eq_zero.mp (by omega)
    simp only [List.nil_append, applyDocRequests, List.foldl_cons,
      List.foldl_nil, applyDocRequest, hnil]
    show RemoteDoc.mk ((([] : List Char) ++ t.toList ++ ([] : List Char)).asString)
      = ⟨t⟩
    rw [List.nil_append, List.append_nil]
    rfl
  · rw [if_pos (by omega)]
    simp only [applyDocRequests, List.cons_append, List.nil_append,
      List.foldl_cons, List.foldl_nil, applyDocRequest]
    have h1 : ((1 : Int).toNat - 1) = 0 := by omega
    have h2 : ((max 1 ((d.text.length : Int) + 2 - 1)).toNat - 1)
        = d.text.length := by omega
    have hdrop : List.drop d.text.length d.text.toList = [] :=
      List.drop_eq_nil_of_le (by omega)
    rw [h1, h2, hdrop]
    show RemoteDoc.mk ((([] : List Char) ++ t.toList ++ ([] : List Char)).asString)
      = ⟨t⟩
    rw [List.nil_append, List.append_nil]
    rfl

/-- The batch posted by `atualizarDocumento`
(`src/atualizarDocumento.ts` lines 24-36): a single `insertText` of the
content at index 1, with no preceding delete. -/
def atualizarDocumentoRequests (content : String) : List DocRequest :=
  [DocRequest.insertText 1 content]

/-- C9 counterexample: applying the `atualizarDocumento` batch twice with
the text `x` to an initially empty body leaves the body text `xx` — the
input text appears twice, so the cited insert-only path is not idempotent. -/
theorem atualizarDocumento_not_idempotent :
    (applyDocRequests
        (applyDocRequests ⟨("")⟩ (atualizarDocumentoRequests ("x")))
        (atualizarDocumentoRequests ("x"))).text = ("xx")
    ∧ ("xx") ≠ ("x") := ⟨by rfl, by decide⟩

/-- C9 (amended): for `GoogleDocsApi.updateById` (the full-body replace of
§4.3) the claim holds — after one and hence after two replaces with the
same text `t`, the remote body text equals `t` exactly once; the
`atualizarDocumento` path, which only inserts, does not satisfy this. -/
theorem replaceBody_idempotent (d : RemoteDoc) (t : String) :
    (replaceBody (replaceBody d t) t).text = t
    ∧ (replaceBody d t).text = t := by
  rw [replaceBody_text, replaceBody_text]
  exact ⟨rfl, rfl⟩

/-- The per-instance token cache of `GoogleApi`
(`src/google/google.ts` lines 44-45) and likewise the module-level cache of
`src/utils.ts` (lines 104-105): the current token (string or null) and the
absolute expiry timestamp in milliseconds (initially 0). -/
structure TokenState where
  accessToken : Option String
  accessTokenExpiresAtMs : Nat
deriving DecidableEq, Repr

/-- The cache before any call: no token, expiry 0. -/
def initialTokenState : TokenState := ⟨none, 0⟩

/-- The token endpoint's success payload: `access_token` plus the optional
`expires_in` seconds. -/
structure TokenResponse where
  access_token : String
  expires_in : Option Nat
deriving DecidableEq, Repr

/-- The cache check shared by both implementations (`google.ts` line 285,
`utils.ts` line 111): `accessToken && expiresAt > now + 5 * 60 * 1000`; a
null or empty token string is falsy in JS. -/
def tokenCacheValid (st : TokenState) (now : Nat) : Bool :=
  (match st.accessToken with
   | some tok => decide (tok ≠ (""))
   | none => false)
  && decide (st.accessTokenExpiresAtMs > now + 5 * 60 * 1000)

/-- `GoogleApi.getAccessToken` (`src/google/google.ts` lines 281-312) as a
state transition: at time `now`, either return the cached token with no
exchange, or perform one exchange whose endpoint would answer `resp` and
cache `access_token` with expiry `now + (expires_in ?? 3600) * 1000`.
Returns (token, new cache state, whether an exchange was performed). -/
def getAccessToken (st : TokenState) (now : Nat) (resp : TokenResponse) :
    String × TokenState × Bool :=
  if tokenCacheValid st now then
    (st.accessToken.getD (""), st, false)
  else
    (resp.access_token,
     ⟨some resp.access_token, now + (resp.expires_in.getD 3600) * 1000⟩,
     true)

/-- `getGoogleAccessToken` from `src/utils.ts` lines 107-120 as the same
kind of transition on the module-level cache: identical cache check, but
on refresh the stored expiry is always `now + 3600 * 1000`, ignoring the
response's `expires_in`. -/
def getGoogleAccessToken (st : TokenState) (now : Nat) (resp : TokenResponse) :
    String × TokenState × Bool :=
  if tokenCacheValid st now then
    (st.accessToken.getD (""), st, false)
  else
    (resp.access_token, ⟨some resp.access_token, now + 3600 * 1000⟩, true)

/-- C3: with a nonempty cached token string, a call returns it without an
exchange exactly when `now + 5 minutes < cached expiry`, leaving the cache
untouched; starting from a fresh instance, a first call exchanges and a
second call within the safety margin returns the identical token with no
further exchange; a call at or past the cached expiry performs a new
exchange. -/
theorem getAccessToken_cache_policy
    (st : TokenState) (now now₁ now₂ : Nat) (resp resp₁ resp₂ : TokenResponse)
    (t : String) (hcached : st.accessToken = some t) (hne : t ≠ (""))
    (hfresh : resp₁.access_token ≠ (""))
    (hwithin : now₂ + 5 * 60 * 1000
        < now₁ + (resp₁.expires_in.getD 3600) * 1000) :
    ((getAccessToken st now resp).2.2 = false ↔
        now + 5 * 60 * 1000 < st.accessTokenExpiresAtMs)
    ∧ ((getAccessToken st now resp).2.2 = false →
        (getAccessToken st now resp).1 = t
        ∧ (getAccessToken st now resp).2.1 = st)
    ∧ ((getAccessToken initialTokenState now₁ resp₁).2.2 = true
        ∧ (getAccessToken
            (getAccessToken initialTokenState now₁ resp₁).2.1 now₂ resp₂).2.2
            = false
        ∧ (getAccessToken
            (getAccessToken initialTokenState now₁ resp₁).2.1 now₂ resp₂).1
            = (getAccessToken initialTokenState now₁ resp₁).1)
    ∧ (st.accessTokenExpiresAtMs ≤ now →
        (getAccessToken st now resp).2.2 = true) := by
  have hv₁ : tokenCacheValid
      (⟨some resp₁.access_token,
        now₁ + (resp₁.expires_in.getD 3600) * 1000⟩ : TokenState) now₂
      = true := by
    simp only [tokenCacheValid, Bool.and_eq_true, decide_eq_true_eq]
    exact ⟨hfresh, by omega⟩
  refine ⟨?_, ?_, ⟨rfl, ?_, ?_⟩, ?_⟩
  · by_cases hc : now + 5 * 60 * 1000 < st.accessTokenExpiresAtMs
    · have hv : tokenCacheValid st now = true := by
        simp only [tokenCacheValid, hcached, Bool.and_eq_true,
          decide_eq_true_eq]
        exact ⟨hne, by omega⟩
      simp [getAccessToken, hv, hc]
    · have hv : tokenCacheValid st now = false := by
        simp only [tokenCacheValid, hcached]
        simp only [Bool.and_eq_false_iff, decide_eq_false_iff_not]
        right
        omega
      simp [getAccessToken, hv, hc]
  · intro hfalse
    by_cases hv : tokenCacheValid st now
    · simp [getAccessToken, hv, hcached]
    · simp [getAccessToken, hv] at hfalse
  · show (getAccessToken
        (⟨some resp₁.access_token,
          now₁ + (resp₁.expires_in.getD 3600) * 1000⟩ : TokenState)
        now₂ resp₂).2.2 = false
    simp [getAccessToken, hv₁]
  · show (getAccessToken
        (⟨some resp₁.access_token,
          now₁ + (resp₁.expires_in.getD 3600) * 1000⟩ : TokenState)
        now₂ resp₂).1 = resp₁.access_token
    simp [getAccessToken, hv₁]
  · intro hexp
    have hv : tokenCacheValid st now = false := by
      simp only [tokenCacheValid, hcached]
      simp only [Bool.and_eq_false_iff, decide_eq_false_iff_not]
      right
      omega
    simp [getAccessToken, hv]

/-- Witness for C3: fresh instance, exchange at time 0 answering token `a`
with default expiry, second call at time 1000 (within the margin). -/
theorem getAccessToken_cache_policy_witness :
    (getAccessToken initialTokenState 0 ⟨("a"), none⟩).2.2 = true
    ∧ (getAccessToken (getAccessToken initialTokenState 0 ⟨("a"), none⟩).2.1
        1000 ⟨("b"), some 60⟩).2.2 = false
    ∧ (getAccessToken (getAccessToken initialTokenState 0 ⟨("a"), none⟩).2.1
        1000 ⟨("b"), some 60⟩).1
      = (getAccessToken initialTokenState 0 ⟨("a"), none⟩).1 :=
  (getAccessToken_cache_policy ⟨some ("tok"), 1000000000⟩ 0 0 1000
    ⟨("x"), none⟩ ⟨("a"), none⟩ ⟨("b"), some 60⟩ ("tok")
    rfl (by decide) (by decide) (by decide)).2.2.1

/-- C7 counterexample: from the fresh module-level cache of `utils.ts`, an
exchange at time 0 whose response carries `expires_in = 7200` is cached
with expiry 3600 seconds from the call, not 7200 seconds. -/
theorem getGoogleAccessToken_expiry_counterexample :
    (getGoogleAccessToken initialTokenState 0
        ⟨("tok"), some 7200⟩).2.1.accessTokenExpiresAtMs = 3600 * 1000
    ∧ (3600 : Nat) * 1000 ≠ 7200 * 1000 := ⟨by rfl, by decide⟩

/-- C7 (amended): on a cache miss, `GoogleApi.getAccessToken` caches the
response's `access_token` with absolute expiry `now + (expires_in ?? 3600)`
seconds, whereas the module-level `getGoogleAccessToken` of `utils.ts`
caches the token with expiry `now + 3600` seconds regardless of the
response's `expires_in`. -/
theorem tokenExchange_expiry (st : TokenState) (now : Nat)
    (resp : TokenResponse) (hmiss : tokenCacheValid st now = false) :
    (getAccessToken st now resp).2.1
        = ⟨some resp.access_token, now + (resp.expires_in.getD 3600) * 1000⟩
    ∧ (getAccessToken st now resp).2.2 = true
    ∧ (getGoogleAccessToken st now resp).2.1
        = ⟨some resp.access_token, now + 3600 * 1000⟩ := by
  refine ⟨?_, ?_, ?_⟩ <;> simp [getAccessToken, getGoogleAccessToken, hmiss]

/-- Witness for C7 (amended) at the fresh cache, time 0, `expires_in = 60`. -/
theorem tokenExchange_expiry_witness :
    (getAccessToken initialTokenState 0 ⟨("t"), some 60⟩).2.1
        = ⟨some ("t"), 0 + 60 * 1000⟩ :=
  (tokenExchange_expiry initialTokenState 0 ⟨("t"), some 60⟩ (by rfl)).1

/-- An HTTP response as observed by the error paths: `ok`, the numeric
status, and the body read as text. -/
structure HttpResponse where
  ok : Bool
  status : Nat
  bodyText : String
deriving DecidableEq, Repr

/-- The HTTP-error check of `GoogleApi.request`
(`src/google/google.ts` lines 208-211): on a non-ok response, read the body
as text and throw `Google API erro {status}: {body}`; otherwise proceed to
JSON parsing. -/
def requestCheck (resp : HttpResponse) : Except String Unit :=
  if resp.ok then Except.ok ()
  else Except.error (("Google API erro ") ++ toString resp.status ++ (": ")
    ++ resp.bodyText)

/-- The HTTP-error check of the `gapiGet` copy in the unnamed utility
module (part_001 lines 122-136): on a non-ok response it throws
`Google API erro {status}` without reading the body text. -/
def gapiGetCheck (resp : HttpResponse) : Except String Unit :=
  if resp.ok then Except.ok ()
  else Except.error (("Google API erro ") ++ toString resp.status)

/-- C8 counterexample: for a 404 response whose body is `notfound`, the
cited `gapiGet` variant fails with `Google API erro 404` — the raw body
text is omitted (it does not even occur in the error message). -/
theorem gapiGetCheck_counterexample :
    gapiGetCheck ⟨false, 404, ("notfound")⟩
        = Except.error ("Google API erro 404")
    ∧ ¬ ((("notfound").toList) <:+: (("Google API erro 404").toList)) :=
  ⟨by rfl, by decide⟩

/-- C8 (amended): `GoogleApi.request` fails on every non-ok response with
an error carrying the numeric status and the raw body text verbatim (the
body text is a suffix of the message), while the cited `gapiGet` copy
carries only the status. -/
theorem requestCheck_error_carries_status_and_body (resp : HttpResponse)
    (h : resp.ok = false) :
    requestCheck resp = Except.error (("Google API erro ")
        ++ toString resp.status ++ (": ") ++ resp.bodyText)
    ∧ resp.bodyText.toList <:+ ((("Google API erro ")
        ++ toString resp.status ++ (": ") ++ resp.bodyText).toList)
    ∧ gapiGetCheck resp
        = Except.error (("Google API erro ") ++ toString resp.status) := by
  refine ⟨by simp [requestCheck, h], ?_, by simp [gapiGetCheck, h]⟩
  have hsplit : ((("Google API erro ") ++ toString resp.status ++ (": ")
      ++ resp.bodyText).toList)
      = ((("Google API erro ") ++ toString resp.status ++ (": ")).toList)
        ++ resp.bodyText.toList := by
    simp [String.toList, String.data_append]
  rw [hsplit]
  exact List.suffix_append _ _

/-- Witness for C8 (amended) at a 404 response with body `nf`. -/
theorem requestCheck_error_witness :
    requestCheck ⟨false, 404, ("nf")⟩ = Except.error (("Google API erro ")
        ++ toString (404 : Nat) ++ (": ") ++ ("nf")) :=
  (requestCheck_error_carries_status_and_body ⟨false, 404, ("nf")⟩ rfl).1
